import Mathlib

/-!
Verification of the Pachyderm cluster-auth core and pipeline master against
its natural-language specification.  The Go source is shallowly embedded:
the auth API server state (admin cache, admin store collection, ACL
collection, token collection, entitlement oracle result) becomes an explicit
`AuthEnv` record, each RPC handler becomes a Lean function from the
environment and request to an `Except` result (plus an updated environment
for mutating handlers), and the etcd collections become association lists.
The token hash (SHA-256 hex in the source) is passed as an arbitrary
function parameter `hashToken`: every theorem holds for any choice of it.
-/

namespace Pach

/-- Scope is the proto enum NONE = 0 < READER = 1 < WRITER = 2 < OWNER = 3.
The source compares scopes as integers (`req.Scope <= acl.Entries[user]`). -/
inductive Scope
  | NONE
  | READER
  | WRITER
  | OWNER
deriving DecidableEq, Repr

/-- Numeric value of the proto enum, used for scope comparison. -/
def Scope.toNat : Scope → Nat
  | .NONE => 0
  | .READER => 1
  | .WRITER => 2
  | .OWNER => 3

/-- Integer comparison of scopes, as the Go source does on the proto enum. -/
def Scope.le (a b : Scope) : Bool := a.toNat ≤ b.toNat

/-- User type: HUMAN tokens come from Authenticate, PIPELINE from GetCapability. -/
inductive UserType
  | HUMAN
  | PIPELINE
deriving DecidableEq, Repr

/-- authclient.User: a username together with its type. -/
structure User where
  username : String
  type : UserType
deriving DecidableEq, Repr

/-- Enterprise entitlement tri-state (enterprise proto `State`). -/
inductive EntState
  | NONE
  | ACTIVE
  | EXPIRED
deriving DecidableEq, Repr

/-- authclient.ACL: a repo ACL, a mapping username -> Scope (entries as an
association list; Go map lookup of an absent key yields the zero value NONE). -/
structure ACL where
  entries : List (String × Scope)
deriving DecidableEq, Repr

/-- A token record stored in the tokens collection: the user the (hashed)
token points to and an optional TTL in seconds (`PutTTL` vs plain `Put`). -/
structure TokenRecord where
  user : User
  ttl : Option Nat
deriving DecidableEq, Repr

/-- Association-list lookup (models an etcd collection point read; `none`
models `col.ErrNotFound`). -/
def lookupKey {α : Type} (l : List (String × α)) (k : String) : Option α :=
  match l with
  | [] => none
  | (k2, v) :: rest => if k2 = k then some v else lookupKey rest k

/-- Association-list upsert (models collection `Put`). -/
def putKey {α : Type} (l : List (String × α)) (k : String) (v : α) : List (String × α) :=
  match l with
  | [] => [(k, v)]
  | (k2, v2) :: rest => if k2 = k then (k2, v) :: rest else (k2, v2) :: putKey rest k v

/-- Association-list delete (models collection `Delete`). -/
def delKey {α : Type} (l : List (String × α)) (k : String) : List (String × α) :=
  match l with
  | [] => []
  | (k2, v) :: rest => if k2 = k then delKey rest k else (k2, v) :: delKey rest k

/-- Go map read on ACL entries: absent key yields the zero Scope, NONE. -/
def ACL.get (acl : ACL) (u : String) : Scope :=
  (lookupKey acl.entries u).getD Scope.NONE

/-- The magicUser constant from the source: a special, unrevokable cluster
administrator; pipelines with no owner run as magicUser when auth is active. -/
def magicUser : String := "GZD4jKDGcirJyWQt6HtK4hhRD6faOofP1mng34xNZsI"

/-- The default TTL (seconds) on tokens minted by Authenticate: two weeks. -/
def defaultTokenTTLSecs : Nat := 14 * 24 * 60 * 60

/-- The auth apiServer state: the in-memory admin cache, the three etcd
collections (admins, acls, tokens) and the result the entitlement oracle
(`getEnterpriseTokenState`) would return, `Except.error` modelling a failed
oracle RPC. -/
structure AuthEnv where
  adminCache : List String
  adminStore : List String
  acls : List (String × ACL)
  tokens : List (String × TokenRecord)
  entitlement : Except String EntState
deriving Repr

/-- Errors surfaced by auth RPC handlers.  `notActivated` is
authclient.NotActivatedError, `notAuthorized` is authclient.NotAuthorizedError,
and `msg` collects the fmt.Errorf string errors. -/
inductive AuthError
  | notActivated
  | notAuthorized (repo : String) (required : Scope)
  | msg (s : String)
deriving DecidableEq, Repr

/-- isActivated: the cluster is activated iff the admin cache is non-empty. -/
def isActivated (env : AuthEnv) : Bool :=
  env.adminCache.length > 0

/-- isAdmin: magicUser is implicitly an admin; otherwise membership in the
admin cache decides. -/
def isAdmin (env : AuthEnv) (user : String) : Bool :=
  user = magicUser || env.adminCache.contains user

/-- getAuthenticatedUser: extract the bearer token from request metadata
(`none` models absent metadata), hash it and read the tokens collection;
a missing row is the generic token-not-found failure. -/
def getAuthenticatedUser (hashToken : String → String) (env : AuthEnv)
    (tok : Option String) : Except AuthError User :=
  match tok with
  | none => Except.error (AuthError.msg "auth token not found in context")
  | some t =>
    match lookupKey env.tokens (hashToken t) with
    | none => Except.error (AuthError.msg "token not found")
    | some rec0 => Except.ok rec0.user

/-- AuthorizeRequest: repo name and requested scope. -/
structure AuthorizeRequest where
  repo : String
  scope : Scope
deriving DecidableEq, Repr

/-- AuthorizeResponse carries the boolean authorization decision. -/
structure AuthorizeResponse where
  authorized : Bool
deriving DecidableEq, Repr

/-- Authorize handler: requires activation and an authenticated caller;
admins are always authorized; with an expired/absent entitlement only
PIPELINE users may proceed (others get an error); a missing ACL row yields
`authorized = false`; otherwise the decision is the integer comparison
`req.scope <= acl.Entries[user]`. -/
def Authorize (hashToken : String → String) (env : AuthEnv) (tok : Option String)
    (req : AuthorizeRequest) : Except AuthError AuthorizeResponse :=
  if ¬ isActivated env then Except.error AuthError.notActivated
  else
    match getAuthenticatedUser hashToken env tok with
    | Except.error e => Except.error e
    | Except.ok user =>
      if isAdmin env user.username then Except.ok ⟨true⟩
      else
        match env.entitlement with
        | Except.error e => Except.error (AuthError.msg e)
        | Except.ok state =>
          if state ≠ EntState.ACTIVE ∧ user.type ≠ UserType.PIPELINE then
            Except.error (AuthError.msg "enterprise not active: only a cluster admin can authorize")
          else
            match lookupKey env.acls req.repo with
            | none => Except.ok ⟨false⟩
            | some acl => Except.ok ⟨Scope.le req.scope (acl.get user.username)⟩

/-- ActivateRequest carries the list of usernames to seed as cluster admins. -/
structure ActivateRequest where
  admins : List String
deriving DecidableEq, Repr

/-- Set-style insert into the admins store (etcd `Put` of key -> epsilon:
re-putting an existing key leaves the key set unchanged). -/
def putAdmin (s : List String) (u : String) : List String :=
  if s.contains u then s else s ++ [u]

/-- Set-style delete from the admins store (etcd `Delete` of the key). -/
def delAdmin (s : List String) (u : String) : List String :=
  s.filter (fun v => v ≠ u)

/-- Activate handler: requires the entitlement oracle to answer ACTIVE and
the cluster to not be activated already; no caller authentication is
demanded; on success every username in the request is written as an admin
record in one STM transaction (a single state transition here). -/
def Activate (env : AuthEnv) (req : ActivateRequest) :
    Except AuthError (AuthEnv × Unit) :=
  match env.entitlement with
  | Except.error e => Except.error (AuthError.msg e)
  | Except.ok state =>
    if state ≠ EntState.ACTIVE then
      Except.error (AuthError.msg "enterprise is not active in this cluster")
    else if isActivated env then
      Except.error (AuthError.msg "already activated")
    else
      Except.ok ({ env with adminStore := req.admins.foldl putAdmin env.adminStore }, ())

/-- ModifyAdminsRequest: usernames to grant and to revoke admin status. -/
structure ModifyAdminsRequest where
  add : List String
  remove : List String
deriving DecidableEq, Repr

/-- The set the source builds in validateModifyAdminsRequest: copy the admin
cache into a fresh map, insert every Add, then delete every Remove. -/
def modifyAdminsCheckSet (env : AuthEnv) (req : ModifyAdminsRequest) : List String :=
  let m := env.adminCache.foldl putAdmin []
  let m := req.add.foldl putAdmin m
  req.remove.foldl delAdmin m

/-- validateModifyAdminsRequest: reject the request when the would-be admin
set (cache union Add minus Remove) is empty. -/
def validateModifyAdminsRequest (env : AuthEnv) (req : ModifyAdminsRequest) :
    Except AuthError Unit :=
  if (modifyAdminsCheckSet env req).length = 0 then
    Except.error (AuthError.msg "invalid request: cannot remove all cluster administrators while auth is active")
  else Except.ok ()

/-- ModifyAdmins handler: requires activation, an authenticated admin caller
and a valid request; then, in one STM transaction, puts every Add username
into the admins store and deletes every Remove username. -/
def ModifyAdmins (hashToken : String → String) (env : AuthEnv) (tok : Option String)
    (req : ModifyAdminsRequest) : Except AuthError (AuthEnv × Unit) :=
  if ¬ isActivated env then Except.error AuthError.notActivated
  else
    match getAuthenticatedUser hashToken env tok with
    | Except.error e => Except.error e
    | Except.ok user =>
      if ¬ isAdmin env user.username then
        Except.error (AuthError.msg "must be an admin to modify set of cluster admins")
      else
        match validateModifyAdminsRequest env req with
        | Except.error e => Except.error e
        | Except.ok _ =>
          let store := req.add.foldl putAdmin env.adminStore
          let store := req.remove.foldl delAdmin store
          Except.ok ({ env with adminStore := store }, ())

/-- GetCapability handler: no activation requirement.  When the cluster is
not activated the minted user is magicUser (so the capability stays valid
after a later Activate); otherwise the authenticated caller.  The user type
is unconditionally overwritten to PIPELINE and the token record is stored
with a plain `Put` (no TTL), keyed by the hash of a fresh capability string
(the uuid, passed here as the `capability` parameter). -/
def GetCapability (hashToken : String → String) (env : AuthEnv) (tok : Option String)
    (capability : String) : Except AuthError (AuthEnv × String) :=
  let userRes : Except AuthError User :=
    if ¬ isActivated env then Except.ok ⟨magicUser, UserType.HUMAN⟩
    else getAuthenticatedUser hashToken env tok
  match userRes with
  | Except.error e => Except.error e
  | Except.ok user =>
    let minted : User := { user with type := UserType.PIPELINE }
    Except.ok ({ env with
      tokens := putKey env.tokens (hashToken capability) ⟨minted, none⟩ }, capability)

/-- RevokeAuthTokenRequest carries the plaintext token to revoke. -/
structure RevokeAuthTokenRequest where
  token : String
deriving DecidableEq, Repr

/-- RevokeAuthToken handler: requires activation and any authenticated
caller; inside the STM transaction, a missing record for the hashed token is
ignored (success), a non-PIPELINE record is an error, and a PIPELINE record
is deleted. -/
def RevokeAuthToken (hashToken : String → String) (env : AuthEnv) (tok : Option String)
    (req : RevokeAuthTokenRequest) : Except AuthError (AuthEnv × Unit) :=
  if ¬ isActivated env then Except.error AuthError.notActivated
  else
    match getAuthenticatedUser hashToken env tok with
    | Except.error e => Except.error e
    | Except.ok _ =>
      match lookupKey env.tokens (hashToken req.token) with
      | none => Except.ok (env, ())
      | some rec0 =>
        if rec0.user.type ≠ UserType.PIPELINE then
          Except.error (AuthError.msg "cannot revoke a non-pipeline auth token")
        else
          Except.ok ({ env with tokens := delKey env.tokens (hashToken req.token) }, ())

/-- AuthenticateRequest: the caller-asserted GitHub username and the GitHub
OAuth access token. -/
structure AuthenticateRequest where
  githubUsername : String
  githubToken : String
deriving DecidableEq, Repr

/-- Username resolution step of Authenticate.  `testMode` models the
PACHYDERM_AUTHENTICATION_DISABLED_FOR_TESTING environment variable being
"true" (the claimed username is taken unchecked); `resolve` is the result of
the external AccessTokenToUsername call in prod mode, where a non-empty
claimed username that disagrees with the resolved one is rejected. -/
def resolveUsername (testMode : Bool) (resolve : Except String String)
    (req : AuthenticateRequest) : Except AuthError String :=
  if testMode then Except.ok req.githubUsername
  else
    match resolve with
    | Except.error e => Except.error (AuthError.msg e)
    | Except.ok username =>
      if req.githubUsername ≠ "" ∧ req.githubUsername ≠ username then
        Except.error (AuthError.msg "github token did not originate from that account")
      else Except.ok username

/-- Authenticate handler: requires activation; rejects magicUser by name;
resolves the username; then, if the entitlement state is not ACTIVE and the
resolved username is not an admin, fails without minting; otherwise stores a
HUMAN token with the default two-week TTL under the hash of a fresh token
string (the uuid, passed as the `newToken` parameter). -/
def Authenticate (hashToken : String → String) (env : AuthEnv) (testMode : Bool)
    (resolve : Except String String) (req : AuthenticateRequest)
    (newToken : String) : Except AuthError (AuthEnv × String) :=
  if ¬ isActivated env then Except.error AuthError.notActivated
  else if req.githubUsername = magicUser then Except.error (AuthError.msg "invalid user")
  else
    match resolveUsername testMode resolve req with
    | Except.error e => Except.error e
    | Except.ok username =>
      match env.entitlement with
      | Except.error e => Except.error (AuthError.msg e)
      | Except.ok state =>
        if state ≠ EntState.ACTIVE ∧ ¬ isAdmin env username then
          Except.error (AuthError.msg "enterprise is not active: only cluster admins can perform any operations")
        else
          let rec0 : TokenRecord := ⟨⟨username, UserType.HUMAN⟩, some defaultTokenTTLSecs⟩
          Except.ok ({ env with tokens := putKey env.tokens (hashToken newToken) rec0 }, newToken)

/-- Result of the external pachClient.InspectRepo call made by SetScope:
the repo exists, the error string ends in "not found" (repo missing), or any
other failure. -/
inductive RepoLookup
  | found
  | missing
  | failure (e : String)
deriving DecidableEq, Repr

/-- External calls (remote RPCs) a transaction body can make; used to audit
what the SetScope STM callback does besides reading and writing the store. -/
inductive ExtCall
  | entOracle
  | inspectRepo (repo : String)
deriving DecidableEq, Repr

/-- SetScopeRequest: repository, target username and the scope to record
(NONE removes the entry). -/
structure SetScopeRequest where
  repo : String
  username : String
  scope : Scope
deriving DecidableEq, Repr

/-- validateSetScopeRequest: username and repo must be non-empty. -/
def validateSetScopeRequest (req : SetScopeRequest) : Except AuthError Unit :=
  if req.username = "" then Except.error (AuthError.msg "invalid request: must set username")
  else if req.repo = "" then Except.error (AuthError.msg "invalid request: must set repo")
  else Except.ok ()

/-- The authorization closure inside the SetScope STM callback, returning
the decision (or an error) together with the external RPCs it performed, in
order.  Admins pass immediately with no RPC; otherwise the entitlement
oracle is called inside the callback, a non-empty ACL requires the caller to
hold OWNER, and an empty ACL triggers an InspectRepo call inside the
callback, with the repo-creation bootstrap (caller granting themself OWNER
on a missing repo) the only authorized outcome. -/
def setScopeAuth (env : AuthEnv) (inspect : String → RepoLookup) (user : User)
    (req : SetScopeRequest) (acl : ACL) :
    Except AuthError Bool × List ExtCall :=
  if isAdmin env user.username then (Except.ok true, [])
  else
    match env.entitlement with
    | Except.error e => (Except.error (AuthError.msg e), [ExtCall.entOracle])
    | Except.ok state =>
      if state ≠ EntState.ACTIVE then
        (Except.error (AuthError.msg "enterprise is not active: only a cluster admin can set a scope"),
          [ExtCall.entOracle])
      else if acl.entries.length > 0 then
        if acl.get user.username = Scope.OWNER then (Except.ok true, [ExtCall.entOracle])
        else (Except.ok false, [ExtCall.entOracle])
      else
        match inspect req.repo with
        | RepoLookup.found =>
          (Except.ok false, [ExtCall.entOracle, ExtCall.inspectRepo req.repo])
        | RepoLookup.failure e =>
          (Except.error (AuthError.msg e), [ExtCall.entOracle, ExtCall.inspectRepo req.repo])
        | RepoLookup.missing =>
          if req.username = user.username ∧ req.scope = Scope.OWNER then
            (Except.ok true, [ExtCall.entOracle, ExtCall.inspectRepo req.repo])
          else
            (Except.error (AuthError.msg "repo not found"),
              [ExtCall.entOracle, ExtCall.inspectRepo req.repo])

/-- The STM callback body of SetScope proper: read the ACL, run the
authorization closure, then record or remove the entry and unconditionally
Put the resulting ACL back under the repo key. -/
def setScopeSTM (env : AuthEnv) (inspect : String → RepoLookup) (user : User)
    (req : SetScopeRequest) :
    Except AuthError (List (String × ACL)) × List ExtCall :=
  let acl : ACL := (lookupKey env.acls req.repo).getD ⟨[]⟩
  match setScopeAuth env inspect user req acl with
  | (Except.error e, tr) => (Except.error e, tr)
  | (Except.ok authorized, tr) =>
    if ¬ authorized then (Except.error (AuthError.notAuthorized req.repo Scope.OWNER), tr)
    else
      let acl2 : ACL :=
        if req.scope ≠ Scope.NONE then ⟨putKey acl.entries req.username req.scope⟩
        else ⟨delKey acl.entries req.username⟩
      (Except.ok (putKey env.acls req.repo acl2), tr)

/-- SetScope handler: activation check, request validation, caller
authentication, then the STM transaction body above. -/
def SetScope (hashToken : String → String) (env : AuthEnv)
    (inspect : String → RepoLookup) (tok : Option String)
    (req : SetScopeRequest) : Except AuthError (AuthEnv × Unit) :=
  if ¬ isActivated env then Except.error AuthError.notActivated
  else
    match validateSetScopeRequest req with
    | Except.error e => Except.error e
    | Except.ok _ =>
      match getAuthenticatedUser hashToken env tok with
      | Except.error e => Except.error e
      | Except.ok user =>
        match (setScopeSTM env inspect user req).1 with
        | Except.error e => Except.error e
        | Except.ok newAcls => Except.ok ({ env with acls := newAcls }, ())

/-- SetACLRequest: repository and the replacement ACL (`none` models a nil
NewACL pointer). -/
structure SetACLRequest where
  repo : String
  newACL : Option ACL
deriving DecidableEq, Repr

/-- SetACL handler: activation check, non-empty repo, caller authentication,
entitlement gate for non-admins, then in the STM transaction an OWNER check
against the existing ACL (missing row reads as empty) and finally either a
Delete of the ACL row (nil or empty-entries NewACL) or a Put of NewACL. -/
def SetACL (hashToken : String → String) (env : AuthEnv) (tok : Option String)
    (req : SetACLRequest) : Except AuthError (AuthEnv × Unit) :=
  if ¬ isActivated env then Except.error AuthError.notActivated
  else if req.repo = "" then
    Except.error (AuthError.msg "invalid request: must provide name of repo you want to modify")
  else
    match getAuthenticatedUser hashToken env tok with
    | Except.error e => Except.error e
    | Except.ok user =>
      match env.entitlement with
      | Except.error e => Except.error (AuthError.msg e)
      | Except.ok state =>
        if state ≠ EntState.ACTIVE ∧ ¬ isAdmin env user.username then
          Except.error (AuthError.msg "enterprise is not active: only a cluster admin can perform any operations")
        else
          let acl : ACL := (lookupKey env.acls req.repo).getD ⟨[]⟩
          if ¬ isAdmin env user.username ∧ (acl.get user.username).toNat < Scope.OWNER.toNat then
            Except.error (AuthError.notAuthorized req.repo Scope.OWNER)
          else
            match req.newACL with
            | none => Except.ok ({ env with acls := delKey env.acls req.repo }, ())
            | some newACL =>
              if newACL.entries.length = 0 then
                Except.ok ({ env with acls := delKey env.acls req.repo }, ())
              else
                Except.ok ({ env with acls := putKey env.acls req.repo newACL }, ())

/-- The connection pool entry connCount: an optional channel (`none` models
the nil *grpc.ClientConn placeholder installed by the endpoint watcher;
channels themselves are opaque ids) and the outstanding-request count. -/
structure ConnCount where
  cc : Option Nat
  count : Int
deriving DecidableEq, Repr

/-- Result of the selection loop in Pool.Do over the address map (the map is
embedded as an association list in one iteration order; every theorem holds
for every order).  `dialed` records that the loop hit an entry with no
channel, dialed it synchronously, installed the channel and broke out;
`best` records the least-outstanding entry found otherwise (`none` when the
map is empty).  Both carry the chosen entry together with the untouched
entries before and after it. -/
inductive ScanResult
  | dialed (pre : List (String × ConnCount)) (chosen : String × ConnCount)
      (post : List (String × ConnCount))
  | best (found : Option (List (String × ConnCount) × (String × ConnCount) ×
      List (String × ConnCount)))
deriving Repr

/-- Selection loop of Pool.Do: walk the entries; the first entry with no
channel is dialed (a dial failure aborts the whole call) and wins
immediately; otherwise the entry with the minimum outstanding count wins,
earliest entry winning ties (the Go comparison is strict). -/
def scanConns (dial : String → Except String Nat) :
    List (String × ConnCount) → Except String ScanResult
  | [] => Except.ok (ScanResult.best none)
  | (addr, e) :: rest =>
    match e.cc with
    | none =>
      match dial addr with
      | Except.error err => Except.error err
      | Except.ok c => Except.ok (ScanResult.dialed [] (addr, ⟨some c, e.count⟩) rest)
    | some _ =>
      match scanConns dial rest with
      | Except.error err => Except.error err
      | Except.ok (ScanResult.dialed pre ch post) =>
        Except.ok (ScanResult.dialed ((addr, e) :: pre) ch post)
      | Except.ok (ScanResult.best none) =>
        Except.ok (ScanResult.best (some ([], (addr, e), rest)))
      | Except.ok (ScanResult.best (some (pre, ch, post))) =>
        if ch.2.count < e.count then
          Except.ok (ScanResult.best (some ((addr, e) :: pre, ch, post)))
        else
          Except.ok (ScanResult.best (some ([], (addr, e), rest)))

/-- Outcome of the user callback f passed to Pool.Do: normal return, error
return, or panic. -/
inductive FOutcome
  | ok
  | fail (e : String)
  | panicked
deriving DecidableEq, Repr

/-- Outcome of Pool.Do itself: success, error (selection failure, dial
failure or an error returned by f), or a propagated panic from f (the
deferred count decrement still runs). -/
inductive DoOutcome
  | ok
  | fail (e : String)
  | panicked
deriving DecidableEq, Repr

/-- Observable trace of one Pool.Do call: its outcome, the argument f was
invoked with (`none` when f was never invoked; the inner Option is the
possibly-nil channel the Go code would pass), the pool map while f runs
(after the increment) and the pool map after Do returns (after the deferred
decrement). -/
structure DoTrace where
  outcome : DoOutcome
  callArg : Option (Option Nat)
  during : List (String × ConnCount)
  final : List (String × ConnCount)
deriving Repr

/-- Body of Pool.Do once an entry is chosen: increment the chosen entry's
outstanding count, invoke f on its channel, and decrement the count on the
way out whatever f did (the decrement is deferred in the source, so it also
runs when f panics). -/
def doBody (pre : List (String × ConnCount)) (ch : String × ConnCount)
    (post : List (String × ConnCount)) (f : Option Nat → FOutcome) : DoTrace :=
  let during := pre ++ [(ch.1, ⟨ch.2.cc, ch.2.count + 1⟩)] ++ post
  let final := pre ++ [ch] ++ post
  let out :=
    match f ch.2.cc with
    | FOutcome.ok => DoOutcome.ok
    | FOutcome.fail e => DoOutcome.fail e
    | FOutcome.panicked => DoOutcome.panicked
  ⟨out, some ch.2.cc, during, final⟩

/-- Pool.Do: select a connection under the pool mutex (dialing a channel for
a fresh placeholder entry if one exists, else least outstanding count), fail
with "no endpoints found" on an empty map, then run the increment / invoke /
deferred-decrement body. -/
def DoRun (dial : String → Except String Nat) (conns : List (String × ConnCount))
    (f : Option Nat → FOutcome) : DoTrace :=
  match scanConns dial conns with
  | Except.error e => ⟨DoOutcome.fail e, none, conns, conns⟩
  | Except.ok (ScanResult.best none) =>
    ⟨DoOutcome.fail "no endpoints found", none, conns, conns⟩
  | Except.ok (ScanResult.dialed pre ch post) => doBody pre ch post f
  | Except.ok (ScanResult.best (some (pre, ch, post))) => doBody pre ch post f

/-- A pipeline record as the master sees it: the pipeline name, the legacy
single-input field (`none` models a nil Input pointer) and the multi-input
list; input payloads are opaque ids. -/
structure PipelineInfo where
  name : String
  input : Option Nat
  inputs : List Nat
deriving DecidableEq, Repr

/-- An event delivered by the pipelines watch. -/
inductive PipelineEvent
  | put (key : String) (info : PipelineInfo)
  | delete (key : String)
deriving DecidableEq, Repr

/-- An action the pipeline master can dispatch to the orchestrator. -/
inductive MasterAction
  | upsertWorkers (info : PipelineInfo)
  | deleteWorkers (name : String)
deriving DecidableEq, Repr

/-- Per-event body of the master loop, returning the orchestrator actions it
dispatches.  `translate` is translatePipelineInputs (defined outside this
repository slice; kept abstract), and `err` is the value of the enclosing
function's `err` variable at the switch statement: the source guards both the
upsertWorkersForPipeline call (on Put) and the deleteWorkersForPipeline call
(on Delete) behind `if err != nil`.  At the switch, `err` is always nil: the
only prior assignment is the WatchByIndex call, and a non-nil result returned
from the function before the loop was entered. -/
def masterHandleEvent (translate : List Nat → Option Nat) (err : Option String)
    (ev : PipelineEvent) : List MasterAction :=
  match ev with
  | PipelineEvent.put _ info =>
    let info2 :=
      if info.input = none then { info with input := translate info.inputs } else info
    match err with
    | some _ => [MasterAction.upsertWorkers info2]
    | none => []
  | PipelineEvent.delete name =>
    match err with
    | some _ => [MasterAction.deleteWorkers name]
    | none => []

/-- Concrete activated environment used by witnesses: alice is the sole
admin, repo r grants bob READER, bob holds a HUMAN token stored under key
tkn, and the entitlement is ACTIVE. -/
def envBobReader : AuthEnv :=
  { adminCache := ["alice"], adminStore := ["alice"],
    acls := [("r", ⟨[("bob", Scope.READER)]⟩)],
    tokens := [("tkn", ⟨⟨"bob", UserType.HUMAN⟩, some defaultTokenTTLSecs⟩)],
    entitlement := Except.ok EntState.ACTIVE }

/-- Concrete fresh environment used by witnesses: nothing is stored and the
entitlement is ACTIVE, so the cluster is not activated. -/
def envFresh : AuthEnv :=
  { adminCache := [], adminStore := [], acls := [], tokens := [],
    entitlement := Except.ok EntState.ACTIVE }

/-- Concrete activated environment used by witnesses: alice is the sole
admin and holds token tkA, while the entitlement has EXPIRED. -/
def envExpiredAdmin : AuthEnv :=
  { adminCache := ["alice"], adminStore := ["alice"], acls := [],
    tokens := [("tkA", ⟨⟨"alice", UserType.HUMAN⟩, some defaultTokenTTLSecs⟩)],
    entitlement := Except.ok EntState.EXPIRED }

/-- Concrete activated environment used by witnesses: alice (admin, HUMAN
token tkA) plus a PIPELINE capability stored under key tkP; entitlement
ACTIVE. -/
def envPipeTok : AuthEnv :=
  { adminCache := ["alice"], adminStore := ["alice"], acls := [],
    tokens := [("tkA", ⟨⟨"alice", UserType.HUMAN⟩, some defaultTokenTTLSecs⟩),
               ("tkP", ⟨⟨"pipe", UserType.PIPELINE⟩, none⟩)],
    entitlement := Except.ok EntState.ACTIVE }

/-- Concrete activated environment used by witnesses and counterexamples:
alice (admin, token tkA), and repo r whose ACL holds the single entry
bob -> OWNER; entitlement ACTIVE. -/
def envAliceOwnerBob : AuthEnv :=
  { adminCache := ["alice"], adminStore := ["alice"],
    acls := [("r", ⟨[("bob", Scope.OWNER)]⟩)],
    tokens := [("tkA", ⟨⟨"alice", UserType.HUMAN⟩, some defaultTokenTTLSecs⟩)],
    entitlement := Except.ok EntState.ACTIVE }

/-- Repo-existence oracle answering that every repo exists. -/
def inspectAll : String → RepoLookup := fun _ => RepoLookup.found

/-- Membership after a set-style admin put. -/
theorem mem_putAdmin {s : List String} {u v : String} :
    v ∈ putAdmin s u ↔ v ∈ s ∨ v = u := by
  unfold putAdmin
  by_cases h : s.contains u
  · have hu : u ∈ s := by simpa using h
    simp only [h, if_true, ite_true]
    constructor
    · exact Or.inl
    · rintro (hv | hv)
      · exact hv
      · exact hv ▸ hu
  · have hu : u ∉ s := by simpa using h
    simp [h, hu]

/-- Membership after folding set-style admin puts. -/
theorem mem_foldl_putAdmin {v : String} :
    ∀ (l : List String) (s : List String), v ∈ l.foldl putAdmin s ↔ v ∈ s ∨ v ∈ l := by
  intro l
  induction l with
  | nil => intro s; simp
  | cons a rest ih =>
    intro s
    rw [List.foldl_cons, ih]
    rw [mem_putAdmin]
    constructor
    · rintro ((h | h) | h)
      · exact Or.inl h
      · exact Or.inr (h ▸ List.mem_cons_self a rest)
      · exact Or.inr (List.mem_cons_of_mem a h)
    · rintro (h | h)
      · exact Or.inl (Or.inl h)
      · rcases List.mem_cons.mp h with h | h
        · exact Or.inl (Or.inr h)
        · exact Or.inr h

/-- Membership after a set-style admin delete. -/
theorem mem_delAdmin {s : List String} {u v : String} :
    v ∈ delAdmin s u ↔ v ∈ s ∧ v ≠ u := by
  unfold delAdmin
  simp

/-- Membership after folding set-style admin deletes. -/
theorem mem_foldl_delAdmin {v : String} :
    ∀ (l : List String) (s : List String), v ∈ l.foldl delAdmin s ↔ v ∈ s ∧ v ∉ l := by
  intro l
  induction l with
  | nil => intro s; simp
  | cons a rest ih =>
    intro s
    rw [List.foldl_cons, ih, mem_delAdmin]
    constructor
    · rintro ⟨⟨hs, hne⟩, hnr⟩
      refine ⟨hs, ?_⟩
      intro hmem
      rcases List.mem_cons.mp hmem with h | h
      · exact hne h
      · exact hnr h
    · rintro ⟨hs, hn⟩
      refine ⟨⟨hs, fun h => hn (h ▸ List.mem_cons_self a rest)⟩, fun h => hn (List.mem_cons_of_mem a h)⟩

/-- Point lookup after an association-list upsert. -/
theorem lookup_putKey {α : Type} (l : List (String × α)) (k q : String) (v : α) :
    lookupKey (putKey l k v) q = if k = q then some v else lookupKey l q := by
  induction l with
  | nil => by_cases h : k = q <;> simp [putKey, lookupKey, h]
  | cons p rest ih =>
    obtain ⟨k1, v1⟩ := p
    by_cases h1 : k1 = k
    · subst h1
      by_cases hq : k1 = q <;> simp [putKey, lookupKey, hq]
    · by_cases hq : k1 = q
      · subst hq
        have hne : ¬ k1 = k := h1
        have hne2 : ¬ k = k1 := fun hh => h1 hh.symm
        simp [putKey, lookupKey, h1, hne2]
      · simp [putKey, lookupKey, h1, hq, ih]

/-- Point lookup after an association-list delete. -/
theorem lookup_delKey {α : Type} (l : List (String × α)) (k q : String) :
    lookupKey (delKey l k) q = if k = q then none else lookupKey l q := by
  induction l with
  | nil => by_cases h : k = q <;> simp [delKey, lookupKey, h]
  | cons p rest ih =>
    obtain ⟨k1, v1⟩ := p
    by_cases h1 : k1 = k
    · subst h1
      by_cases hq : k1 = q
      · subst hq
        simpa [delKey, lookupKey] using ih
      · simp [delKey, lookupKey, hq, ih]
    · by_cases hq : k1 = q
      · subst hq
        have hne2 : ¬ k = k1 := fun hh => h1 hh.symm
        simp [delKey, lookupKey, h1, hne2]
      · simp [delKey, lookupKey, h1, hq, ih]

/-- C1: For an activated cluster and every authenticated caller u, repo r and
scope s, with the entitlement oracle answering: Authorize(r, s) returns
Authorized = true iff u is an admin, OR ((the entitlement state is ACTIVE OR
u.Type = PIPELINE) AND the scope recorded for u in r's ACL is >= s), where a
missing ACL for r yields Authorized = false. -/
theorem C1_authorize_iff (hashToken : String → String) (env : AuthEnv) (tok : String)
    (u : User) (st : EntState) (repo : String) (s : Scope)
    (hact : isActivated env = true)
    (hauth : getAuthenticatedUser hashToken env (some tok) = Except.ok u)
    (hent : env.entitlement = Except.ok st) :
    (Authorize hashToken env (some tok) ⟨repo, s⟩ = Except.ok ⟨true⟩) ↔
      (isAdmin env u.username = true ∨
        ((st = EntState.ACTIVE ∨ u.type = UserType.PIPELINE) ∧
          ∃ acl, lookupKey env.acls repo = some acl ∧
            Scope.le s (acl.get u.username) = true)) := by
  by_cases hadm : isAdmin env u.username = true
  · simp [Authorize, hauth, hent, hact, hadm]
  · have hdisj : (st = EntState.ACTIVE ∨ u.type = UserType.PIPELINE) ∨
        (st ≠ EntState.ACTIVE ∧ u.type ≠ UserType.PIPELINE) := by
      by_cases h1 : st = EntState.ACTIVE
      · exact Or.inl (Or.inl h1)
      · by_cases h2 : u.type = UserType.PIPELINE
        · exact Or.inl (Or.inr h2)
        · exact Or.inr ⟨h1, h2⟩
    rcases hdisj with hok | hgate
    · have hgate2 : ¬ (st ≠ EntState.ACTIVE ∧ u.type ≠ UserType.PIPELINE) := by
        rcases hok with h | h
        · intro hc; exact hc.1 h
        · intro hc; exact hc.2 h
      cases hacl : lookupKey env.acls repo with
      | none =>
        simp only [Authorize, hauth, hent, hact]
        simp [hadm, hgate2, hacl, hok]
      | some acl =>
        simp only [Authorize, hauth, hent, hact]
        simp [hadm, hgate2, hacl]
        intro _
        exact hok
    · simp only [Authorize, hauth, hent, hact]
      simp [hadm, hgate]

/-- Witness for C1: a concrete activated environment where bob, a HUMAN user
with READER on repo r under an ACTIVE entitlement, asks for READER and the
biconditional is checked on both sides. -/
theorem C1_authorize_iff_witness :
    (isActivated envBobReader = true) ∧
    (getAuthenticatedUser id envBobReader (some "tkn") =
      Except.ok ⟨"bob", UserType.HUMAN⟩) ∧
    (envBobReader.entitlement = Except.ok EntState.ACTIVE) ∧
    ((Authorize id envBobReader (some "tkn") ⟨"r", Scope.READER⟩ =
        Except.ok ⟨true⟩) ↔
      (isAdmin envBobReader "bob" = true ∨
        ((EntState.ACTIVE = EntState.ACTIVE ∨ UserType.HUMAN = UserType.PIPELINE) ∧
          ∃ acl, lookupKey envBobReader.acls "r" = some acl ∧
            Scope.le Scope.READER (acl.get "bob") = true))) :=
  ⟨by decide, rfl, rfl,
    C1_authorize_iff id envBobReader "tkn" ⟨"bob", UserType.HUMAN⟩ EntState.ACTIVE
      "r" Scope.READER (by decide) rfl rfl⟩

/-- C2: the claim says the master upserts the worker replication controller
on every Put event and deletes it on every Delete event.  The source guards
both calls behind `if err != nil`, and the outer err is nil at the switch, so
the handler dispatches no orchestrator action at all — on the concrete Put
and Delete events shown, and on every event. -/
theorem C2_master_event_dispatches_nothing :
    masterHandleEvent (fun _ => none) none
        (PipelineEvent.put "p" ⟨"p", none, []⟩) = [] ∧
    masterHandleEvent (fun _ => none) none (PipelineEvent.delete "p") = [] ∧
    ∀ (translate : List Nat → Option Nat) (ev : PipelineEvent),
      masterHandleEvent translate none ev = [] := by
  refine ⟨rfl, rfl, ?_⟩
  intro translate ev
  cases ev <;> simp [masterHandleEvent]

/-- C8: Activate fails when the entitlement state is not ACTIVE, and fails
when the cluster is already activated; otherwise it succeeds with no caller
authentication, and every username in the request admin list is written as
an admin record in the single transaction (nothing else changes). -/
theorem C8_activate_spec (env : AuthEnv) (req : ActivateRequest) :
    (env.entitlement ≠ Except.ok EntState.ACTIVE →
      ∃ e, Activate env req = Except.error e) ∧
    (isActivated env = true → ∃ e, Activate env req = Except.error e) ∧
    (env.entitlement = Except.ok EntState.ACTIVE → isActivated env = false →
      ∃ env2, Activate env req = Except.ok (env2, ()) ∧
        env2.adminCache = env.adminCache ∧ env2.acls = env.acls ∧
        env2.tokens = env.tokens ∧ env2.entitlement = env.entitlement ∧
        ∀ u, u ∈ env2.adminStore ↔ u ∈ env.adminStore ∨ u ∈ req.admins) := by
  refine ⟨?_, ?_, ?_⟩
  · intro hne
    unfold Activate
    cases hent : env.entitlement with
    | error e => exact ⟨AuthError.msg e, rfl⟩
    | ok st =>
      have hst : st ≠ EntState.ACTIVE := by
        intro h; exact hne (h ▸ hent)
      simp [hst]
  · intro hact
    unfold Activate
    cases hent : env.entitlement with
    | error e => exact ⟨AuthError.msg e, rfl⟩
    | ok st =>
      by_cases hst : st = EntState.ACTIVE
      · simp [hst, hact]
      · simp [hst]
  · intro hent hact
    unfold Activate
    rw [hent]
    simp only [ne_eq, not_true_eq_false, if_false, ite_false, hact,
      Bool.false_eq_true, if_true, ite_true]
    refine ⟨_, rfl, rfl, rfl, rfl, rfl, ?_⟩
    intro u
    exact mem_foldl_putAdmin req.admins env.adminStore

/-- Witness for C8: on the fresh unactivated environment with an ACTIVE
entitlement, Activate seeding alice succeeds and alice is in the admin
store. -/
theorem C8_activate_spec_witness :
    (envFresh.entitlement = Except.ok EntState.ACTIVE) ∧
    (isActivated envFresh = false) ∧
    ∃ env2, Activate envFresh ⟨["alice"]⟩ = Except.ok (env2, ()) ∧
      env2.adminCache = envFresh.adminCache ∧ env2.acls = envFresh.acls ∧
      env2.tokens = envFresh.tokens ∧ env2.entitlement = envFresh.entitlement ∧
      ∀ u, u ∈ env2.adminStore ↔ u ∈ envFresh.adminStore ∨ u ∈ ["alice"] :=
  ⟨rfl, by decide, (C8_activate_spec envFresh ⟨["alice"]⟩).2.2 rfl (by decide)⟩

/-- C10: for an activated cluster, when the entitlement state is not ACTIVE
and the resolved username is not an admin, Authenticate fails with an error
and no token is minted (an error result performs no store write in this
embedding); a resolved username that is an admin still authenticates and
gets a HUMAN token with the default TTL. -/
theorem C10_authenticate_entitlement_gate (hashToken : String → String)
    (env : AuthEnv) (testMode : Bool) (resolve : Except String String)
    (req : AuthenticateRequest) (newToken : String) (u : String) (st : EntState)
    (hact : isActivated env = true)
    (hmagic : req.githubUsername ≠ magicUser)
    (hres : resolveUsername testMode resolve req = Except.ok u)
    (hent : env.entitlement = Except.ok st)
    (hst : st ≠ EntState.ACTIVE) :
    (isAdmin env u = false →
      Authenticate hashToken env testMode resolve req newToken =
        Except.error (AuthError.msg "enterprise is not active: only cluster admins can perform any operations")) ∧
    (isAdmin env u = true →
      ∃ env2, Authenticate hashToken env testMode resolve req newToken =
          Except.ok (env2, newToken) ∧
        lookupKey env2.tokens (hashToken newToken) =
          some ⟨⟨u, UserType.HUMAN⟩, some defaultTokenTTLSecs⟩ ∧
        env2.adminCache = env.adminCache ∧ env2.adminStore = env.adminStore ∧
        env2.acls = env.acls) := by
  constructor
  · intro hadm
    unfold Authenticate
    rw [hres, hent]
    simp [hact, hmagic, hst, hadm]
  · intro hadm
    have hrun : Authenticate hashToken env testMode resolve req newToken = Except.ok ({ env with tokens := putKey env.tokens (hashToken newToken) ⟨⟨u, UserType.HUMAN⟩, some defaultTokenTTLSecs⟩ }, newToken) := by
      unfold Authenticate
      rw [hres, hent]
      simp [hact, hmagic, hst, hadm]
    exact ⟨_, hrun, by simp [lookup_putKey], rfl, rfl, rfl⟩

/-- Witness for C10: alice, an admin of an activated cluster whose
entitlement has EXPIRED, still authenticates in test mode and a HUMAN token
with the default TTL is stored for her. -/
theorem C10_authenticate_entitlement_gate_witness :
    (isActivated envExpiredAdmin = true) ∧
    (("alice" : String) ≠ magicUser) ∧
    (resolveUsername true (Except.ok "alice") ⟨"alice", ""⟩ = Except.ok "alice") ∧
    (envExpiredAdmin.entitlement = Except.ok EntState.EXPIRED) ∧
    (EntState.EXPIRED ≠ EntState.ACTIVE) ∧
    (isAdmin envExpiredAdmin "alice" = true) ∧
    ∃ env2, Authenticate id envExpiredAdmin true (Except.ok "alice") ⟨"alice", ""⟩ "newTok" =
        Except.ok (env2, "newTok") ∧
      lookupKey env2.tokens (id "newTok") =
        some ⟨⟨"alice", UserType.HUMAN⟩, some defaultTokenTTLSecs⟩ ∧
      env2.adminCache = envExpiredAdmin.adminCache ∧
      env2.adminStore = envExpiredAdmin.adminStore ∧
      env2.acls = envExpiredAdmin.acls :=
  ⟨by decide, by decide, rfl, rfl, by decide, by decide,
    (C10_authenticate_entitlement_gate id envExpiredAdmin true (Except.ok "alice")
        ⟨"alice", ""⟩ "newTok" "alice" EntState.EXPIRED
        (by decide) (by decide) rfl rfl (by decide)).2 (by decide)⟩

/-- C4: GetCapability succeeds even when the cluster is not activated; the
minted token record is stored with no TTL; the stored user is always
PIPELINE-typed; and in the unactivated case the minted username is the
magicUser sentinel, so the capability stays valid after a later Activate. -/
theorem C4_getcapability_spec (hashToken : String → String) (env : AuthEnv)
    (tok : Option String) (cap : String) :
    (isActivated env = false →
      ∃ env2, GetCapability hashToken env tok cap = Except.ok (env2, cap) ∧
        lookupKey env2.tokens (hashToken cap) =
          some ⟨⟨magicUser, UserType.PIPELINE⟩, none⟩) ∧
    (∀ u, isActivated env = true →
      getAuthenticatedUser hashToken env tok = Except.ok u →
      ∃ env2, GetCapability hashToken env tok cap = Except.ok (env2, cap) ∧
        lookupKey env2.tokens (hashToken cap) =
          some ⟨⟨u.username, UserType.PIPELINE⟩, none⟩) := by
  constructor
  · intro hact
    unfold GetCapability
    simp only [hact, Bool.false_eq_true, not_false_eq_true, if_true, ite_true]
    exact ⟨_, rfl, by simp [lookup_putKey]⟩
  · intro u hact hauth
    unfold GetCapability
    rw [hauth]
    simp only [hact, Bool.not_eq_true, Bool.true_eq_false, if_false, ite_false]
    exact ⟨_, rfl, by simp [lookup_putKey]⟩

/-- Witness for C4: on the fresh unactivated environment the minted record
is the magic PIPELINE user with no TTL, and on the activated environment the
caller bob gets a PIPELINE record with no TTL. -/
theorem C4_getcapability_spec_witness :
    ((isActivated envFresh = false) ∧
      ∃ env2, GetCapability id envFresh none "cap" = Except.ok (env2, "cap") ∧
        lookupKey env2.tokens (id "cap") =
          some ⟨⟨magicUser, UserType.PIPELINE⟩, none⟩) ∧
    ((isActivated envBobReader = true) ∧
      (getAuthenticatedUser id envBobReader (some "tkn") =
        Except.ok ⟨"bob", UserType.HUMAN⟩) ∧
      ∃ env2, GetCapability id envBobReader (some "tkn") "cap" = Except.ok (env2, "cap") ∧
        lookupKey env2.tokens (id "cap") =
          some ⟨⟨"bob", UserType.PIPELINE⟩, none⟩) :=
  ⟨⟨by decide, (C4_getcapability_spec id envFresh none "cap").1 (by decide)⟩,
    ⟨by decide, rfl,
      (C4_getcapability_spec id envBobReader (some "tkn") "cap").2
        ⟨"bob", UserType.HUMAN⟩ (by decide) rfl⟩⟩

/-- C5: for an activated cluster and an authenticated caller, revoking a
token with no stored record succeeds; revoking a HUMAN-typed token fails
with an error (an error result performs no store write in this embedding);
revoking a PIPELINE-typed token deletes exactly that record and succeeds,
and — when the caller authenticates with a different token — revoking it a
second time succeeds again. -/
theorem C5_revoke_spec (hashToken : String → String) (env : AuthEnv)
    (tok : Option String) (req : RevokeAuthTokenRequest) (u : User)
    (hact : isActivated env = true)
    (hauth : getAuthenticatedUser hashToken env tok = Except.ok u) :
    (lookupKey env.tokens (hashToken req.token) = none →
      RevokeAuthToken hashToken env tok req = Except.ok (env, ())) ∧
    (∀ rec0, lookupKey env.tokens (hashToken req.token) = some rec0 →
      rec0.user.type = UserType.HUMAN →
      RevokeAuthToken hashToken env tok req =
        Except.error (AuthError.msg "cannot revoke a non-pipeline auth token")) ∧
    (∀ rec0 calltok, tok = some calltok →
      hashToken calltok ≠ hashToken req.token →
      lookupKey env.tokens (hashToken req.token) = some rec0 →
      rec0.user.type = UserType.PIPELINE →
      ∃ env2, RevokeAuthToken hashToken env tok req = Except.ok (env2, ()) ∧
        lookupKey env2.tokens (hashToken req.token) = none ∧
        (∀ k, k ≠ hashToken req.token → lookupKey env2.tokens k = lookupKey env.tokens k) ∧
        RevokeAuthToken hashToken env2 tok req = Except.ok (env2, ())) := by
  refine ⟨?_, ?_, ?_⟩
  · intro hnone
    unfold RevokeAuthToken
    rw [hauth, hnone]
    simp [hact]
  · intro rec0 hsome htype
    unfold RevokeAuthToken
    rw [hauth, hsome]
    simp [hact, htype]
  · intro rec0 calltok htok hne hsome htype
    have hdel : ∀ k, lookupKey (delKey env.tokens (hashToken req.token)) k =
        if hashToken req.token = k then none else lookupKey env.tokens k := by
      intro k; exact lookup_delKey env.tokens (hashToken req.token) k
    refine ⟨{ env with tokens := delKey env.tokens (hashToken req.token) }, ?_, ?_, ?_, ?_⟩
    · unfold RevokeAuthToken
      rw [hauth, hsome]
      simp [hact, htype]
    · simp [hdel]
    · intro k hk
      rw [hdel k, if_neg (fun h => hk h.symm)]
    · have hauth2 : getAuthenticatedUser hashToken
          { env with tokens := delKey env.tokens (hashToken req.token) } tok =
          Except.ok u := by
        subst htok
        have hl : lookupKey (delKey env.tokens (hashToken req.token)) (hashToken calltok) =
            lookupKey env.tokens (hashToken calltok) := by
          rw [hdel (hashToken calltok), if_neg (fun h => hne h.symm)]
        simp only [getAuthenticatedUser] at hauth ⊢
        rw [hl]
        exact hauth
      have hact2 : isActivated { env with tokens := delKey env.tokens (hashToken req.token) } = true := hact
      unfold RevokeAuthToken
      rw [hauth2]
      have hnone2 : lookupKey (delKey env.tokens (hashToken req.token))
          (hashToken req.token) = none := by simp [hdel]
      rw [hnone2]
      simp [hact2]

/-- Witness for C5: alice revokes the PIPELINE capability stored under tkP
while authenticating with her own token tkA; the record disappears, hers
survives, and a second revoke also succeeds. -/
theorem C5_revoke_spec_witness :
    (isActivated envPipeTok = true) ∧
    (getAuthenticatedUser id envPipeTok (some "tkA") =
      Except.ok ⟨"alice", UserType.HUMAN⟩) ∧
    ∃ env2, RevokeAuthToken id envPipeTok (some "tkA") ⟨"tkP"⟩ = Except.ok (env2, ()) ∧
      lookupKey env2.tokens (id "tkP") = none ∧
      (∀ k, k ≠ id "tkP" → lookupKey env2.tokens k = lookupKey envPipeTok.tokens k) ∧
      RevokeAuthToken id env2 (some "tkA") ⟨"tkP"⟩ = Except.ok (env2, ()) :=
  ⟨by decide, rfl,
    (C5_revoke_spec id envPipeTok (some "tkA") ⟨"tkP"⟩ ⟨"alice", UserType.HUMAN⟩
        (by decide) rfl).2.2 ⟨⟨"pipe", UserType.PIPELINE⟩, none⟩ "tkA" rfl
        (by decide) rfl rfl⟩

/-- Emptiness of the validation set built by validateModifyAdminsRequest:
the map obtained by inserting the cache and the Add list and then deleting
the Remove list is empty exactly when every cached or added username is also
removed. -/
theorem modifyAdminsCheckSet_empty_iff (env : AuthEnv) (req : ModifyAdminsRequest) :
    (modifyAdminsCheckSet env req).length = 0 ↔
      ∀ u, (u ∈ env.adminCache ∨ u ∈ req.add) → u ∈ req.remove := by
  unfold modifyAdminsCheckSet
  rw [List.length_eq_zero, List.eq_nil_iff_forall_not_mem]
  constructor
  · intro h u hu
    by_contra hnr
    refine h u ?_
    rw [mem_foldl_delAdmin, mem_foldl_putAdmin, mem_foldl_putAdmin]
    rcases hu with hc | ha
    · exact ⟨Or.inl (Or.inr hc), hnr⟩
    · exact ⟨Or.inr ha, hnr⟩
  · intro hall u
    rw [mem_foldl_delAdmin, mem_foldl_putAdmin, mem_foldl_putAdmin]
    rintro ⟨(hin | hc) | ha, hnr⟩
    · rcases hin with ⟨⟩
    · exact hnr (hall u (Or.inl hc))
    · exact hnr (hall u (Or.inr ha))

/-- C3: for an activated cluster with an authenticated admin caller, if the
admin cache together with Add minus Remove would be empty, ModifyAdmins is
rejected with an invalid-argument error (and, being an error result, writes
nothing in this embedding); otherwise it succeeds and the admins store after
the single transaction holds exactly the old records plus Add minus Remove. -/
theorem C3_modifyadmins_spec (hashToken : String → String) (env : AuthEnv)
    (tok : Option String) (req : ModifyAdminsRequest) (u : User)
    (hact : isActivated env = true)
    (hauth : getAuthenticatedUser hashToken env tok = Except.ok u)
    (hadm : isAdmin env u.username = true) :
    ((∀ v, (v ∈ env.adminCache ∨ v ∈ req.add) → v ∈ req.remove) →
      ModifyAdmins hashToken env tok req =
        Except.error (AuthError.msg "invalid request: cannot remove all cluster administrators while auth is active")) ∧
    (¬ (∀ v, (v ∈ env.adminCache ∨ v ∈ req.add) → v ∈ req.remove) →
      ∃ env2, ModifyAdmins hashToken env tok req = Except.ok (env2, ()) ∧
        env2.adminCache = env.adminCache ∧ env2.acls = env.acls ∧
        env2.tokens = env.tokens ∧
        ∀ v, v ∈ env2.adminStore ↔ (v ∈ env.adminStore ∨ v ∈ req.add) ∧ v ∉ req.remove) := by
  constructor
  · intro hempty
    have hval : validateModifyAdminsRequest env req =
        Except.error (AuthError.msg "invalid request: cannot remove all cluster administrators while auth is active") := by
      unfold validateModifyAdminsRequest
      rw [if_pos ((modifyAdminsCheckSet_empty_iff env req).mpr hempty)]
    unfold ModifyAdmins
    rw [hauth, hval]
    simp [hact, hadm]
  · intro hne
    have hlen : ¬ (modifyAdminsCheckSet env req).length = 0 := by
      intro h
      exact hne ((modifyAdminsCheckSet_empty_iff env req).mp h)
    have hval : validateModifyAdminsRequest env req = Except.ok () := by
      unfold validateModifyAdminsRequest
      rw [if_neg hlen]
    have hrun : ModifyAdmins hashToken env tok req = Except.ok ({ env with adminStore := req.remove.foldl delAdmin (req.add.foldl putAdmin env.adminStore) }, ()) := by
      unfold ModifyAdmins
      rw [hauth, hval]
      simp [hact, hadm]
    refine ⟨_, hrun, rfl, rfl, rfl, ?_⟩
    intro v
    rw [mem_foldl_delAdmin, mem_foldl_putAdmin]

/-- Witness for C3: with alice the only admin, adding bob and removing both
alice and bob is rejected; adding bob alone succeeds and the store then
holds alice and bob. -/
theorem C3_modifyadmins_spec_witness :
    (isActivated envPipeTok = true) ∧
    (getAuthenticatedUser id envPipeTok (some "tkA") =
      Except.ok ⟨"alice", UserType.HUMAN⟩) ∧
    (isAdmin envPipeTok "alice" = true) ∧
    (¬ (∀ v, (v ∈ envPipeTok.adminCache ∨ v ∈ ["bob"]) → v ∈ ([] : List String))) ∧
    ∃ env2, ModifyAdmins id envPipeTok (some "tkA") ⟨["bob"], []⟩ = Except.ok (env2, ()) ∧
      env2.adminCache = envPipeTok.adminCache ∧ env2.acls = envPipeTok.acls ∧
      env2.tokens = envPipeTok.tokens ∧
      ∀ v, v ∈ env2.adminStore ↔
        (v ∈ envPipeTok.adminStore ∨ v ∈ ["bob"]) ∧ v ∉ ([] : List String) := by
  have hne : ¬ (∀ v, (v ∈ envPipeTok.adminCache ∨ v ∈ ["bob"]) → v ∈ ([] : List String)) := by
    intro h
    exact absurd (h "bob" (Or.inr (by decide))) (by decide)
  exact ⟨by decide, rfl, by decide, hne,
    (C3_modifyadmins_spec id envPipeTok (some "tkA") ⟨["bob"], []⟩
        ⟨"alice", UserType.HUMAN⟩ (by decide) rfl (by decide)).2 hne⟩

/-- Shape of a successful SetScope STM body: the new ACL collection is
always a Put of the updated ACL under the repo key — a put of the entries
with the target entry recorded, or, for scope NONE, with the target entry
removed; the row itself is never deleted. -/
theorem setScopeSTM_ok_shape (env : AuthEnv) (inspect : String → RepoLookup)
    (user : User) (req : SetScopeRequest) (newAcls : List (String × ACL))
    (h : (setScopeSTM env inspect user req).1 = Except.ok newAcls) :
    newAcls = putKey env.acls req.repo
      (if req.scope = Scope.NONE
       then ⟨delKey ((lookupKey env.acls req.repo).getD ⟨[]⟩).entries req.username⟩
       else ⟨putKey ((lookupKey env.acls req.repo).getD ⟨[]⟩).entries req.username req.scope⟩) := by
  simp only [setScopeSTM] at h
  rcases hauth : setScopeAuth env inspect user req ((lookupKey env.acls req.repo).getD ⟨[]⟩) with ⟨res, tr⟩
  rw [hauth] at h
  cases res with
  | error e => simp at h
  | ok authorized =>
    cases authorized with
    | false => simp at h
    | true =>
      simp at h
      exact h.symm

/-- The external-call trace of the SetScope STM body is exactly the trace of
its authorization closure. -/
theorem setScopeSTM_trace (env : AuthEnv) (inspect : String → RepoLookup)
    (user : User) (req : SetScopeRequest) :
    (setScopeSTM env inspect user req).2 =
      (setScopeAuth env inspect user req ((lookupKey env.acls req.repo).getD ⟨[]⟩)).2 := by
  simp only [setScopeSTM]
  rcases h : setScopeAuth env inspect user req ((lookupKey env.acls req.repo).getD ⟨[]⟩) with ⟨res, tr⟩
  cases res with
  | error e => simp
  | ok authorized => cases authorized <;> simp

/-- C6 counterexample: admin alice removes the last remaining ACL entry of
repo r by setting bob's scope to NONE; the call succeeds, yet the ACL row
for r is still present, holding an ACL with empty Entries — the row is not
deleted, contradicting the claim that every operation leaving Entries empty
deletes the row. -/
theorem C6_counterexample_setscope_keeps_row :
    SetScope id envAliceOwnerBob inspectAll (some "tkA") ⟨"r", "bob", Scope.NONE⟩ =
      Except.ok ({ envAliceOwnerBob with acls := [("r", ⟨[]⟩)] }, ()) ∧
    lookupKey [("r", (⟨[]⟩ : ACL))] "r" = some ⟨[]⟩ := ⟨rfl, rfl⟩

/-- C6 amended: SetACL with a nil or empty-entries new ACL does delete the
ACL row; but a successful SetScope with scope NONE always leaves the row
present, storing the ACL with the target entry removed (possibly with empty
Entries) rather than deleting the row. -/
theorem C6_amended_row_behaviour :
    (∀ (hashToken : String → String) (env : AuthEnv) (tok : Option String)
        (req : SetACLRequest) (env2 : AuthEnv),
      (req.newACL = none ∨ ∃ acl, req.newACL = some acl ∧ acl.entries = []) →
      SetACL hashToken env tok req = Except.ok (env2, ()) →
      lookupKey env2.acls req.repo = none) ∧
    (∀ (hashToken : String → String) (env : AuthEnv) (inspect : String → RepoLookup)
        (tok : Option String) (req : SetScopeRequest) (env2 : AuthEnv),
      req.scope = Scope.NONE →
      SetScope hashToken env inspect tok req = Except.ok (env2, ()) →
      lookupKey env2.acls req.repo =
        some ⟨delKey ((lookupKey env.acls req.repo).getD ⟨[]⟩).entries req.username⟩) := by
  constructor
  · intro hashToken env tok req env2 hempty hok
    unfold SetACL at hok
    by_cases hact : isActivated env = true
    case neg => simp [hact] at hok
    by_cases hrepo : req.repo = ""
    case pos => simp [hact, hrepo] at hok
    cases hu : getAuthenticatedUser hashToken env tok with
    | error e => simp [hact, hrepo, hu] at hok
    | ok user =>
      cases hent : env.entitlement with
      | error e => simp [hact, hrepo, hu, hent] at hok
      | ok state =>
        by_cases hgate : ¬ state = EntState.ACTIVE ∧ isAdmin env user.username = false
        case pos => simp [hact, hrepo, hu, hent, hgate] at hok
        by_cases hown : isAdmin env user.username = false ∧
            (((lookupKey env.acls req.repo).getD ⟨[]⟩).get user.username).toNat < Scope.OWNER.toNat
        case pos =>
          simp [hact, hrepo, hu, hent, hgate, hown] at hok
          split at hok <;> simp at hok
        rcases hempty with hnone | ⟨acl, hsome, hnil⟩
        · simp [hact, hrepo, hu, hent, hgate, hown, hnone] at hok
          subst hok
          show lookupKey (delKey env.acls req.repo) req.repo = none
          rw [lookup_delKey]
          simp
        · simp [hact, hrepo, hu, hent, hgate, hown, hsome, hnil] at hok
          subst hok
          show lookupKey (delKey env.acls req.repo) req.repo = none
          rw [lookup_delKey]
          simp
  · intro hashToken env inspect tok req env2 hscope hok
    unfold SetScope at hok
    by_cases hact : isActivated env = true
    case neg => simp [hact] at hok
    cases hval : validateSetScopeRequest req with
    | error e => simp [hact, hval] at hok
    | ok unit0 =>
      cases hu : getAuthenticatedUser hashToken env tok with
      | error e => simp [hact, hval, hu] at hok
      | ok user =>
        cases hstm : (setScopeSTM env inspect user req).1 with
        | error e => simp [hact, hval, hu, hstm] at hok
        | ok newAcls =>
          simp [hact, hval, hu, hstm] at hok
          subst hok
          have hsh := setScopeSTM_ok_shape env inspect user req newAcls hstm
          rw [hscope] at hsh
          simp only [if_true, ite_true] at hsh
          show lookupKey newAcls req.repo = _
          rw [hsh, lookup_putKey]
          simp

/-- Witness for the amended C6: admin alice replaces repo r's ACL with an
empty one via SetACL, deleting the row; and the SetScope run of the
counterexample matches the amended description, the row surviving with
bob's entry removed. -/
theorem C6_amended_row_behaviour_witness :
    ((some (⟨[]⟩ : ACL) = none ∨ ∃ acl, some (⟨[]⟩ : ACL) = some acl ∧ ACL.entries acl = []) ∧
      ∃ env2, SetACL id envAliceOwnerBob (some "tkA") ⟨"r", some ⟨[]⟩⟩ = Except.ok (env2, ()) ∧
        lookupKey env2.acls "r" = none) ∧
    ((Scope.NONE = Scope.NONE) ∧
      ∃ env2, SetScope id envAliceOwnerBob inspectAll (some "tkA") ⟨"r", "bob", Scope.NONE⟩ =
          Except.ok (env2, ()) ∧
        lookupKey env2.acls "r" =
          some ⟨delKey ((lookupKey envAliceOwnerBob.acls "r").getD ⟨[]⟩).entries "bob"⟩) := by
  constructor
  · refine ⟨Or.inr ⟨⟨[]⟩, rfl, rfl⟩, { envAliceOwnerBob with acls := [] }, rfl, ?_⟩
    exact C6_amended_row_behaviour.1 id envAliceOwnerBob (some "tkA") ⟨"r", some ⟨[]⟩⟩
      { envAliceOwnerBob with acls := [] } (Or.inr ⟨⟨[]⟩, rfl, rfl⟩) rfl
  · refine ⟨rfl, { envAliceOwnerBob with acls := [("r", ⟨[]⟩)] }, rfl, ?_⟩
    exact C6_amended_row_behaviour.2 id envAliceOwnerBob inspectAll (some "tkA")
      ⟨"r", "bob", Scope.NONE⟩ { envAliceOwnerBob with acls := [("r", ⟨[]⟩)] } rfl rfl

/-- C9 counterexample: bob, a non-admin of the activated concrete
environment, runs a SetScope whose STM callback calls the entitlement
oracle — an external RPC inside the retriable transaction body,
contradicting the claim that the callback performs no external RPCs. -/
theorem C9_counterexample_stm_rpc :
    ExtCall.entOracle ∈
      (setScopeSTM envBobReader inspectAll ⟨"bob", UserType.HUMAN⟩
        ⟨"r", "bob", Scope.READER⟩).2 := by decide

/-- C9 amended: the SetScope STM callback is not free of external RPCs — it
calls the entitlement oracle inside the retriable callback for every
non-admin caller (and, on an empty ACL with an ACTIVE entitlement, also
inspects repo existence there); only for admin callers is the callback free
of external calls. -/
theorem C9_amended_stm_rpc (env : AuthEnv) (inspect : String → RepoLookup)
    (user : User) (req : SetScopeRequest) :
    (isAdmin env user.username = true → (setScopeSTM env inspect user req).2 = []) ∧
    (isAdmin env user.username = false →
      ExtCall.entOracle ∈ (setScopeSTM env inspect user req).2) ∧
    (isAdmin env user.username = false →
      env.entitlement = Except.ok EntState.ACTIVE →
      (((lookupKey env.acls req.repo).getD ⟨[]⟩) : ACL).entries = [] →
      ExtCall.inspectRepo req.repo ∈ (setScopeSTM env inspect user req).2) := by
  rw [setScopeSTM_trace]
  refine ⟨?_, ?_, ?_⟩
  · intro h
    unfold setScopeAuth
    simp [h]
  · intro h
    unfold setScopeAuth
    simp only [h, Bool.false_eq_true, if_false, ite_false]
    cases env.entitlement with
    | error e => simp
    | ok st =>
      by_cases hst : st = EntState.ACTIVE
      case neg => simp [hst]
      simp only [hst, ne_eq, not_true_eq_false, if_false, ite_false]
      by_cases hlen : (((lookupKey env.acls req.repo).getD ⟨[]⟩) : ACL).entries.length > 0
      · simp only [hlen, if_true, ite_true]
        by_cases hown : (((lookupKey env.acls req.repo).getD ⟨[]⟩) : ACL).get user.username = Scope.OWNER <;>
          simp [hown]
      · simp only [hlen, if_false, ite_false]
        cases hins : inspect req.repo with
        | found => simp
        | missing =>
          by_cases hboot : req.username = user.username ∧ req.scope = Scope.OWNER <;> simp [hboot]
        | failure e => simp
  · intro h hent hnil
    unfold setScopeAuth
    rw [hent]
    simp only [h, Bool.false_eq_true, if_false, ite_false, ne_eq, not_true_eq_false]
    have hlen : ¬ (((lookupKey env.acls req.repo).getD ⟨[]⟩) : ACL).entries.length > 0 := by
      rw [hnil]
      simp
    simp only [hlen, if_false, ite_false]
    cases hins : inspect req.repo with
    | found => simp
    | missing =>
      by_cases hboot : req.username = user.username ∧ req.scope = Scope.OWNER <;> simp [hboot]
    | failure e => simp

/-- Witness for the amended C9: admin alice's callback performs no external
call; non-admin bob's callback calls the entitlement oracle; and on repo s,
which has no ACL row, bob's callback also inspects repo existence under the
ACTIVE entitlement. -/
theorem C9_amended_stm_rpc_witness :
    ((isAdmin envBobReader "alice" = true) ∧
      (setScopeSTM envBobReader inspectAll ⟨"alice", UserType.HUMAN⟩
        ⟨"r", "bob", Scope.READER⟩).2 = []) ∧
    ((isAdmin envBobReader "bob" = false) ∧
      ExtCall.entOracle ∈
        (setScopeSTM envBobReader inspectAll ⟨"bob", UserType.HUMAN⟩
          ⟨"r", "carol", Scope.READER⟩).2) ∧
    ((isAdmin envBobReader "bob" = false) ∧
      (envBobReader.entitlement = Except.ok EntState.ACTIVE) ∧
      ((((lookupKey envBobReader.acls "s").getD ⟨[]⟩) : ACL).entries = []) ∧
      ExtCall.inspectRepo "s" ∈
        (setScopeSTM envBobReader inspectAll ⟨"bob", UserType.HUMAN⟩
          ⟨"s", "bob", Scope.OWNER⟩).2) :=
  ⟨⟨by decide,
    (C9_amended_stm_rpc envBobReader inspectAll ⟨"alice", UserType.HUMAN⟩
      ⟨"r", "bob", Scope.READER⟩).1 (by decide)⟩,
   ⟨by decide,
    (C9_amended_stm_rpc envBobReader inspectAll ⟨"bob", UserType.HUMAN⟩
      ⟨"r", "carol", Scope.READER⟩).2.1 (by decide)⟩,
   ⟨by decide, rfl, by decide,
    (C9_amended_stm_rpc envBobReader inspectAll ⟨"bob", UserType.HUMAN⟩
      ⟨"s", "bob", Scope.OWNER⟩).2.2 (by decide) rfl (by decide)⟩⟩

/-- Shape of the Pool.Do selection loop: it fails, finds nothing on an empty
map, or picks one entry of the map — returning the untouched entries before
and after it — whose channel is non-nil in the result: either the entry
already had channel c, or it had none and was dialed to c. -/
theorem scanConns_shape (dial : String → Except String Nat) :
    ∀ conns : List (String × ConnCount),
      (∃ e, scanConns dial conns = Except.error e) ∨
      (scanConns dial conns = Except.ok (ScanResult.best none) ∧ conns = []) ∨
      (∃ pre a cc0 cnt c post,
        conns = pre ++ (a, ⟨cc0, cnt⟩) :: post ∧
        (cc0 = none ∨ cc0 = some c) ∧
        (scanConns dial conns = Except.ok (ScanResult.dialed pre (a, ⟨some c, cnt⟩) post) ∨
         scanConns dial conns =
           Except.ok (ScanResult.best (some (pre, (a, ⟨some c, cnt⟩), post))))) := by
  intro conns
  induction conns with
  | nil => exact Or.inr (Or.inl ⟨rfl, rfl⟩)
  | cons p rest ih =>
    obtain ⟨addr, e⟩ := p
    cases hcc : e.cc with
    | none =>
      cases hdial : dial addr with
      | error err =>
        exact Or.inl ⟨err, by simp [scanConns, hcc, hdial]⟩
      | ok c =>
        refine Or.inr (Or.inr ⟨[], addr, none, e.count, c, rest, ?_, Or.inl rfl, Or.inl ?_⟩)
        · rw [← hcc]
          rfl
        · simp [scanConns, hcc, hdial]
    | some c0 =>
      rcases ih with ⟨err, herr⟩ | ⟨hbest, hnil⟩ | ⟨pre, a, cc0, cnt, c, post, hdec, hcc0, hres⟩
      · exact Or.inl ⟨err, by simp [scanConns, hcc, herr]⟩
      · subst hnil
        refine Or.inr (Or.inr ⟨[], addr, some c0, e.count, c0, [], ?_, Or.inr rfl, Or.inr ?_⟩)
        · rw [← hcc]
          rfl
        · simp [scanConns, hcc, hbest]
          rw [← hcc]
      · rcases hres with hdialed | hbest
        · refine Or.inr (Or.inr ⟨(addr, e) :: pre, a, cc0, cnt, c, post, by rw [hdec]; rfl, hcc0, Or.inl ?_⟩)
          simp [scanConns, hcc, hdialed]
        · by_cases hlt : cnt < e.count
          · refine Or.inr (Or.inr ⟨(addr, e) :: pre, a, cc0, cnt, c, post, by rw [hdec]; rfl, hcc0, Or.inr ?_⟩)
            simp [scanConns, hcc, hbest, hlt]
          · refine Or.inr (Or.inr ⟨[], addr, some c0, e.count, c0, rest, ?_, Or.inr rfl, Or.inr ?_⟩)
            · rw [← hcc]
              rfl
            · simp [scanConns, hcc, hbest, hlt]
              rw [← hcc]

/-- C7: Pool.Do fails with "no endpoints found" on an empty address map
without invoking f; whenever f is invoked its argument is a non-nil channel;
and the chosen entry's outstanding count is incremented by exactly one
before f runs and restored after it completes — with every other entry's
count untouched — regardless of whether f returns nil, returns an error, or
panics (f is arbitrary here, and the trace records the map during and after
the call). -/
theorem C7_pool_do_spec (dial : String → Except String Nat)
    (conns : List (String × ConnCount)) (f : Option Nat → FOutcome) :
    (conns = [] →
      (DoRun dial conns f).outcome = DoOutcome.fail "no endpoints found" ∧
      (DoRun dial conns f).callArg = none ∧
      (DoRun dial conns f).final = conns) ∧
    (∀ a, (DoRun dial conns f).callArg = some a → ∃ c, a = some c) ∧
    (∀ a, (DoRun dial conns f).callArg = some a →
      ∃ pre addr cc0 cnt c post,
        conns = pre ++ (addr, ⟨cc0, cnt⟩) :: post ∧
        a = some c ∧
        (DoRun dial conns f).during = pre ++ (addr, ⟨some c, cnt + 1⟩) :: post ∧
        (DoRun dial conns f).final = pre ++ (addr, ⟨some c, cnt⟩) :: post) := by
  refine ⟨?_, ?_, ?_⟩
  · rintro rfl
    exact ⟨rfl, rfl, rfl⟩
  · intro a ha
    rcases scanConns_shape dial conns with ⟨err, herr⟩ | ⟨hbest, hnil⟩ |
        ⟨pre, ad, cc0, cnt, c, post, hdec, hcc0, hres⟩
    · rw [DoRun, herr] at ha
      simp at ha
    · rw [DoRun, hbest] at ha
      simp at ha
    · rcases hres with hrun | hrun
      all_goals
        rw [DoRun, hrun] at ha
        simp [doBody] at ha
        exact ⟨c, ha.symm⟩
  · intro a ha
    rcases scanConns_shape dial conns with ⟨err, herr⟩ | ⟨hbest, hnil⟩ |
        ⟨pre, ad, cc0, cnt, c, post, hdec, hcc0, hres⟩
    · rw [DoRun, herr] at ha
      simp at ha
    · rw [DoRun, hbest] at ha
      simp at ha
    · rcases hres with hrun | hrun


      all_goals
        rw [DoRun, hrun] at ha
        simp [doBody] at ha
        refine ⟨pre, ad, cc0, cnt, c, post, hdec, ha.symm, ?_, ?_⟩
      all_goals
        rw [DoRun, hrun]
        simp [doBody]

/-- Witness for C7: on the empty map Do fails with "no endpoints found"
without calling f, and on a one-entry map with outstanding count 0 a
panicking f is called with the non-nil channel 5 while the count reads 1
during the call and 0 again after it. -/
theorem C7_pool_do_spec_witness :
    ((DoRun (fun _ => Except.ok 9) [] (fun _ => FOutcome.ok)).outcome =
        DoOutcome.fail "no endpoints found" ∧
      (DoRun (fun _ => Except.ok 9) [] (fun _ => FOutcome.ok)).callArg = none ∧
      (DoRun (fun _ => Except.ok 9) [] (fun _ => FOutcome.ok)).final = []) ∧
    (∃ c, (some 5 : Option Nat) = some c) ∧
    (∃ pre addr cc0 cnt c post,
      [("a", (⟨some 5, 0⟩ : ConnCount))] = pre ++ (addr, ⟨cc0, cnt⟩) :: post ∧
      (some 5 : Option Nat) = some c ∧
      (DoRun (fun _ => Except.ok 9) [("a", ⟨some 5, 0⟩)]
        (fun _ => FOutcome.panicked)).during = pre ++ (addr, ⟨some c, cnt + 1⟩) :: post ∧
      (DoRun (fun _ => Except.ok 9) [("a", ⟨some 5, 0⟩)]
        (fun _ => FOutcome.panicked)).final = pre ++ (addr, ⟨some c, cnt⟩) :: post) :=
  ⟨(C7_pool_do_spec (fun _ => Except.ok 9) [] (fun _ => FOutcome.ok)).1 rfl,
   (C7_pool_do_spec (fun _ => Except.ok 9) [("a", ⟨some 5, 0⟩)]
     (fun _ => FOutcome.panicked)).2.1 (some 5) rfl,
   (C7_pool_do_spec (fun _ => Except.ok 9) [("a", ⟨some 5, 0⟩)]
     (fun _ => FOutcome.panicked)).2.2 (some 5) rfl⟩

end Pach
